import Mathlib

/-
Verification of the bounded-concurrency install orchestrator of auh
(Arch User Helper, src/main.cpp) against its design specification.

The C++ source is shallowly embedded: each function that the claims
mention becomes a Lean definition over explicit inputs.  Interactions
with the outside world (pacman, curl, git, makepkg, fork, wait) are
modelled by environment records carrying the externally observed
results (exit codes, captured output, termination statuses), and the
process-level scheduler becomes a labelled transition system whose
states mirror the local variables of install_packages_parallel.
-/

namespace Auh

/-- Characters accepted by the C loop body of is_valid_package_name
(main.cpp lines 56-60): isalnum in the C locale (ASCII alphanumerics,
matched by Char.isAlphanum) or one of dash, underscore, dot, plus. -/
def allowedNameChar (c : Char) : Bool :=
  c.isAlphanum || c == '-' || c == '_' || c == '.' || c == '+'

/-- Embedding of is_valid_package_name (main.cpp lines 49-62): an empty
name is rejected, otherwise every character must pass the allowed-set
test; the C early-return loop is List.all. -/
def is_valid_package_name (name : List Char) : Bool :=
  if name.isEmpty then false
  else name.all allowedNameChar

/-- Character class written from the spec's words: an ASCII code in
A-Z (65-90), a-z (97-122), 0-9 (48-57), or one of the four punctuation
characters dash (45), underscore (95), dot (46), plus (43). -/
def specAllowedChar (c : Char) : Prop :=
  (65 ≤ c.toNat ∧ c.toNat ≤ 90) ∨ (97 ≤ c.toNat ∧ c.toNat ≤ 122)
    ∨ (48 ≤ c.toNat ∧ c.toNat ≤ 57)
    ∨ c.toNat = 45 ∨ c.toNat = 95 ∨ c.toNat = 46 ∨ c.toNat = 43

instance (c : Char) : Decidable (specAllowedChar c) := by
  unfold specAllowedChar; infer_instance

lemma allowedNameChar_iff (c : Char) :
    allowedNameChar c = true ↔ specAllowedChar c := by
  simp [allowedNameChar, specAllowedChar, Char.isAlphanum, Char.isAlpha,
    Char.isDigit, Char.isUpper, Char.isLower, Char.ext_iff,
    UInt32.ext_iff, UInt32.le_def, BitVec.le_def, Char.toNat, UInt32.toNat,
    UInt32.size]
  omega

/-- The claim C4 statement written from the spec side: non-empty, and
every character lies in the allowed class. -/
def spec_valid_name (name : List Char) : Prop :=
  name ≠ [] ∧ ∀ c ∈ name, specAllowedChar c

/-- C4: the name validator returns true iff the string is non-empty and
all of its characters are ASCII alphanumerics or one of dash,
underscore, dot, plus; in particular it rejects the empty string and
any string with a character outside that set. -/
theorem C4_validator_characterisation (name : List Char) :
    is_valid_package_name name = true ↔ spec_valid_name name := by
  unfold is_valid_package_name spec_valid_name
  rcases name with _ | ⟨c, cs⟩
  · simp
  · simp [List.all_eq_true, allowedNameChar_iff]

/-- Whitespace in the sense of C isspace in the default locale: space,
tab, newline, vertical tab, form feed, carriage return. -/
def isSpaceC (c : Char) : Bool :=
  c == ' ' || c == '\t' || c == '\n' || c.toNat == 11 || c.toNat == 12
    || c == '\r'

/-- Embedding of the trailing-whitespace trim loop used on captured
output (main.cpp lines 135-136): pop characters from the back while
they satisfy isspace. -/
def trim_trailing (s : List Char) : List Char :=
  (s.reverse.dropWhile isSpaceC).reverse

/-- Value of a digit string read left to right, as std::stoi
accumulates it. -/
def digitsVal (ds : List Char) : Nat :=
  ds.foldl (fun a c => a * 10 + (c.toNat - 48)) 0

/-- Embedding of std::stoi on the captured probe output: skip leading
whitespace, read an optional sign, then a non-empty run of decimal
digits; none models the invalid_argument exception thrown when no
digits can be read.  (Out-of-range inputs do not arise for the 3-digit
status codes this program parses and are not modelled.) -/
def stoiOpt (s : List Char) : Option Int :=
  let s1 := s.dropWhile isSpaceC
  let signed : Int × List Char :=
    match s1 with
    | '+' :: r => (1, r)
    | '-' :: r => (-1, r)
    | r => (1, r)
  let ds := signed.2.takeWhile Char.isDigit
  if ds.isEmpty then none
  else some (signed.1 * (digitsVal ds : Int))

/-- Embedding of is_aur_up (main.cpp lines 365-395).  The argument is
the captured output of the curl status-code command.  When stoi throws,
the source's catch block executes `return 1`, and in a bool-returning
C++ function the int 1 converts to true; the embedding reproduces that
faithfully.  A parsed code is classified up iff 200 <= code < 400. -/
def is_aur_up (http_code_str : List Char) : Bool :=
  match stoiOpt http_code_str with
  | none => true
  | some http_code => decide (200 ≤ http_code ∧ http_code < 400)

/-- C2 evaluation of the embedded probe at the failing inputs: an empty
capture (curl produced no output) and a non-numeric capture both make
stoi throw, and the probe then reports the primary source as up
(true), contradicting the claim that a parse failure is treated as
down; the classification of parsed codes is as claimed. -/
theorem C2_parse_failure_reports_up :
    is_aur_up [] = true
      ∧ is_aur_up "error".toList = true
      ∧ is_aur_up "200".toList = true
      ∧ is_aur_up "302".toList = true
      ∧ is_aur_up "404".toList = false
      ∧ is_aur_up "503".toList = false := by
  decide

/-- Pipeline selected for a batch, following the spec's names. -/
inductive PipelineChoice
  | Primary
  | Mirror
deriving DecidableEq

/-- Embedding of the use_aur computation of main (main.cpp lines
678-684): use_aur starts as the negation of the --github flag and is
replaced by the probe result when it is still true. -/
def use_aur_flag (use_github : Bool) (probe_result : Bool) : Bool :=
  let use_aur := !use_github
  if use_aur then probe_result else use_aur

/-- Source resolver assembled from main lines 678-687 together with the
child branch of install_packages_parallel (lines 451-454): the batch
runs install_pkg (Primary) when use_aur is true and build_from_github
(Mirror) otherwise. -/
def resolve (probeUp : Bool) (explicitMirror : Bool) : PipelineChoice :=
  if use_aur_flag explicitMirror probeUp then PipelineChoice.Primary
  else PipelineChoice.Mirror

/-- C7: the resolver is a pure function of the probe result and the
explicit mirror flag; it yields Mirror exactly when the mirror flag is
set or the probe reported down, and Primary otherwise; in particular a
down probe with no mirror flag sends the whole batch to the Mirror
pipeline. -/
theorem C7_resolver_characterisation :
    ∀ probeUp explicitMirror : Bool,
      (resolve probeUp explicitMirror = PipelineChoice.Mirror
          ↔ (explicitMirror = true ∨ probeUp = false))
        ∧ (resolve probeUp explicitMirror = PipelineChoice.Primary
          ↔ (explicitMirror = false ∧ probeUp = true))
        ∧ resolve false false = PipelineChoice.Mirror := by
  decide

/-- Classified outcome of one build job, following the spec's
JobResult taxonomy restricted to the outcomes a forked worker can
produce. -/
inductive JobResult
  | Success
  | AlreadyInstalled
  | NotFoundUpstream
  | CloneFailure
  | BuildFailure
deriving DecidableEq

/-- External world observed by one build job: the result of the
pacman installed-state query, the captured output of the catalog
query (curl piped to jq; empty when the pipe fails or produces
nothing), and the exit-status successes of git clone and makepkg. -/
structure JobEnv where
  installed : Bool
  queryOut : List Char
  cloneOk : Bool
  buildOk : Bool
deriving DecidableEq

/-- Externally executed commands a job actually issued: whether the
catalog query ran and whether a git clone was attempted. -/
structure JobTrace where
  queried : Bool
  cloned : Bool
deriving DecidableEq

/-- Embedding of install_pkg (main.cpp lines 120-164), the Primary
pipeline: short-circuit when the package is installed; otherwise run
the catalog query, trim trailing whitespace from its output, classify
the literal output "[]" as not found; otherwise clone, then build,
classifying each nonzero exit status.  The trace records which
external commands ran. -/
def install_pkg (env : JobEnv) : JobResult × JobTrace :=
  if env.installed then (JobResult.AlreadyInstalled, ⟨false, false⟩)
  else
    let out := trim_trailing env.queryOut
    if out = "[]".toList then (JobResult.NotFoundUpstream, ⟨true, false⟩)
    else if env.cloneOk = false then (JobResult.CloneFailure, ⟨true, true⟩)
    else if env.buildOk = false then (JobResult.BuildFailure, ⟨true, true⟩)
    else (JobResult.Success, ⟨true, true⟩)

/-- Exit status install_pkg returns for each terminal branch
(main.cpp lines 127, 142, 151, 160, 163). -/
def install_pkg_exit (r : JobResult) : Nat :=
  match r with
  | JobResult.Success => 0
  | JobResult.AlreadyInstalled => 0
  | JobResult.NotFoundUpstream => 1
  | JobResult.CloneFailure => 1
  | JobResult.BuildFailure => 4

/-- Embedding of build_from_github (main.cpp lines 316-355), the
Mirror pipeline: remove the scratch directory, attempt the shallow
single-branch clone, then build; the source consults neither the
installed state nor any catalog, so env.installed and env.queryOut are
never read. -/
def build_from_github (env : JobEnv) : JobResult × JobTrace :=
  if env.cloneOk = false then (JobResult.CloneFailure, ⟨false, true⟩)
  else if env.buildOk = false then (JobResult.BuildFailure, ⟨false, true⟩)
  else (JobResult.Success, ⟨false, true⟩)

/-- Exit status build_from_github returns for each terminal branch
(main.cpp lines 336, 350, 354). -/
def build_from_github_exit (r : JobResult) : Nat :=
  match r with
  | JobResult.CloneFailure => 1
  | JobResult.BuildFailure => 4
  | _ => 0

/-- C3 as amended: in the Primary pipeline an already installed
package performs no catalog query and no clone, terminates as
AlreadyInstalled, and its worker exits 0; the Mirror pipeline however
always attempts the clone regardless of installed state. -/
theorem C3_already_installed_amended (env : JobEnv)
    (h : env.installed = true) :
    install_pkg env = (JobResult.AlreadyInstalled, ⟨false, false⟩)
      ∧ install_pkg_exit (install_pkg env).1 = 0
      ∧ (build_from_github env).2.cloned = true := by
  unfold install_pkg build_from_github
  rw [h]
  refine ⟨rfl, rfl, ?_⟩
  rcases hc : env.cloneOk with _ | _ <;> rcases hb : env.buildOk with _ | _ <;>
    simp [hc, hb]

/-- Witness for C3: the amended theorem evaluated at a concrete
environment in which the package is already installed. -/
theorem C3_already_installed_amended_witness :
    install_pkg ⟨true, [], true, true⟩
        = (JobResult.AlreadyInstalled, ⟨false, false⟩)
      ∧ install_pkg_exit (install_pkg ⟨true, [], true, true⟩).1 = 0
      ∧ (build_from_github ⟨true, [], true, true⟩).2.cloned = true :=
  C3_already_installed_amended ⟨true, [], true, true⟩ rfl

/-- C3 counterexample: a package that is already installed but is
resolved to the Mirror pipeline does get a clone issued for it and
does not terminate as AlreadyInstalled, refuting the claim's
"regardless of which pipeline" part. -/
theorem C3_mirror_clones_counterexample :
    (⟨true, [], true, true⟩ : JobEnv).installed = true
      ∧ (build_from_github ⟨true, [], true, true⟩).2.cloned = true
      ∧ (build_from_github ⟨true, [], true, true⟩).1
          ≠ JobResult.AlreadyInstalled := by
  decide

/-- C9: with the package not installed, the Primary pipeline
classifies NotFoundUpstream exactly when the trimmed catalog output is
the literal string "[]"; an empty capture (failed or silent query
subprocess) is therefore treated as the package existing and the job
proceeds to the clone step. -/
theorem C9_notfound_iff_empty_array (env : JobEnv)
    (h : env.installed = false) :
    ((install_pkg env).1 = JobResult.NotFoundUpstream
        ↔ trim_trailing env.queryOut = "[]".toList)
      ∧ (env.queryOut = [] →
          (install_pkg env).1 ≠ JobResult.NotFoundUpstream
            ∧ (install_pkg env).2.queried = true
            ∧ (install_pkg env).2.cloned = true) := by
  unfold install_pkg
  rw [h]
  simp only [Bool.false_eq_true, if_false]
  constructor
  · by_cases hout : trim_trailing env.queryOut = ['[', ']']
    · simp [hout]
    · rcases hc : env.cloneOk with _ | _ <;> rcases hb : env.buildOk with _ | _ <;>
        simp [hout, hc, hb]
  · intro hq
    have hout : trim_trailing env.queryOut ≠ ['[', ']'] := by
      rw [hq]; decide
    rcases hc : env.cloneOk with _ | _ <;> rcases hb : env.buildOk with _ | _ <;>
      simp [hout, hc, hb]

/-- Witness for C9: the theorem evaluated at a concrete environment
with an empty catalog capture and a not-installed package. -/
theorem C9_notfound_iff_empty_array_witness :
    (((install_pkg ⟨false, [], true, true⟩).1 = JobResult.NotFoundUpstream
        ↔ trim_trailing ([] : List Char) = "[]".toList)
      ∧ (([] : List Char) = [] →
          (install_pkg ⟨false, [], true, true⟩).1 ≠ JobResult.NotFoundUpstream
            ∧ (install_pkg ⟨false, [], true, true⟩).2.queried = true
            ∧ (install_pkg ⟨false, [], true, true⟩).2.cloned = true)) :=
  C9_notfound_iff_empty_array ⟨false, [], true, true⟩ rfl

/-- How the operating system reports a reaped worker's termination:
a normal exit with a status byte (WIFEXITED true) or an abnormal
termination such as death by signal (WIFEXITED false). -/
inductive TermStatus
  | exited (code : Nat)
  | signaled
deriving DecidableEq

/-- One package request of the batch, bundled with the external
nondeterminism that decides its fate: whether fork succeeds for it
and, if forked, how its worker terminates. -/
structure Request where
  name : List Char
  forkOk : Bool
  status : TermStatus
deriving DecidableEq

/-- Local state of install_packages_parallel (main.cpp lines 418-501):
the unprocessed suffix of the package vector (pkg_idx), the live
children, and failed_count.  spawned is a ghost log of every request a
worker was ever forked for, and the three counters split failed_count
by recorded-outcome kind (invalid name, fork failure, reaped worker)
so that outcome conservation can be stated. -/
structure SchedState where
  queue : List Request
  children : List Request
  spawned : List Request
  invalidCnt : Nat
  forkFailCnt : Nat
  reapedCnt : Nat
  failed : Nat
deriving DecidableEq

/-- Start of install_packages_parallel: full queue, no children, zero
counters (main.cpp lines 422-425). -/
def initState (reqs : List Request) : SchedState :=
  ⟨reqs, [], [], 0, 0, 0, 0⟩

/-- Contribution of a reaped termination status to failed_count
(main.cpp line 485): only a normal exit with nonzero status counts. -/
def failOfStatus (st : TermStatus) : Nat :=
  match st with
  | TermStatus.exited c => if c ≠ 0 then 1 else 0
  | TermStatus.signaled => 0

/-- State after the wait branch reaps the i-th live child (main.cpp
lines 475-489): the child is erased from the vector, one reaped
outcome is recorded, and failed_count grows by the status
contribution. -/
def reapAt (s : SchedState) (i : Nat) (hi : i < s.children.length) :
    SchedState :=
  { s with
    children := s.children.eraseIdx i,
    reapedCnt := s.reapedCnt + 1,
    failed := s.failed + failOfStatus (s.children.get ⟨i, hi⟩).status }

/-- Concurrency cap of install_packages_parallel: max_concurrent = 4
(main.cpp line 422). -/
def max_concurrent : Nat := 4

/-- Small-step semantics of install_packages_parallel.  The three
admit steps mirror one iteration of the inner admission loop (lines
431-470), which runs only while packages remain and fewer than
max_concurrent children are live: an invalid name is recorded as a
failure without forking, a failed fork is recorded as a failure, and a
successful fork appends a live child.  The reap step mirrors the wait
branch (lines 473-490), which the control flow reaches only once the
queue is empty or the cap is full, and removes one live child chosen
by the operating system. -/
inductive Step : SchedState → SchedState → Prop
  | admit_invalid {s : SchedState} {r : Request} {q : List Request} :
      s.queue = r :: q →
      s.children.length < max_concurrent →
      is_valid_package_name r.name = false →
      Step s { s with queue := q, invalidCnt := s.invalidCnt + 1,
                      failed := s.failed + 1 }
  | admit_fork_fail {s : SchedState} {r : Request} {q : List Request} :
      s.queue = r :: q →
      s.children.length < max_concurrent →
      is_valid_package_name r.name = true →
      r.forkOk = false →
      Step s { s with queue := q, forkFailCnt := s.forkFailCnt + 1,
                      failed := s.failed + 1 }
  | admit_fork {s : SchedState} {r : Request} {q : List Request} :
      s.queue = r :: q →
      s.children.length < max_concurrent →
      is_valid_package_name r.name = true →
      r.forkOk = true →
      Step s { s with queue := q, children := s.children ++ [r],
                      spawned := s.spawned ++ [r] }
  | reap {s : SchedState} (i : Nat) (hi : i < s.children.length)
      (hguard : s.queue = [] ∨ s.children.length = max_concurrent) :
      Step s (reapAt s i hi)

/-- States install_packages_parallel passes through, starting from the
initial state of some request list. -/
abbrev Reachable (init s : SchedState) : Prop :=
  Relation.ReflTransGen Step init s

/-- Return value of install_packages_parallel (main.cpp lines
493-500): 1 when any failure was counted, else 0. -/
def scheduler_return (s : SchedState) : Nat :=
  if 0 < s.failed then 1 else 0

lemma step_cap {s t : SchedState} (h : Step s t)
    (hs : s.children.length ≤ max_concurrent) :
    t.children.length ≤ max_concurrent := by
  cases h with
  | admit_invalid h1 h2 h3 => exact hs
  | admit_fork_fail h1 h2 h3 h4 => exact hs
  | admit_fork h1 h2 h3 h4 =>
      simp only [List.length_append, List.length_cons, List.length_nil]
      omega
  | reap i hi hguard =>
      simp only [reapAt, List.length_eraseIdx, hi, if_pos]
      omega

lemma reachable_cap {reqs : List Request} {s : SchedState}
    (h : Reachable (initState reqs) s) :
    s.children.length ≤ max_concurrent := by
  induction h with
  | refl => simp [initState, max_concurrent]
  | tail h1 hstep ih => exact step_cap hstep ih

lemma step_conservation {s t : SchedState} (h : Step s t) :
    t.invalidCnt + t.forkFailCnt + t.reapedCnt
        + t.queue.length + t.children.length
      = s.invalidCnt + s.forkFailCnt + s.reapedCnt
        + s.queue.length + s.children.length := by
  cases h with
  | admit_invalid h1 h2 h3 => simp only [h1, List.length_cons]; omega
  | admit_fork_fail h1 h2 h3 h4 => simp only [h1, List.length_cons]; omega
  | admit_fork h1 h2 h3 h4 => simp only [h1, List.length_cons,
      List.length_append, List.length_nil]; omega
  | reap i hi hguard =>
      simp only [reapAt, List.length_eraseIdx, hi, if_pos]
      omega

lemma reachable_conservation {reqs : List Request} {s : SchedState}
    (h : Reachable (initState reqs) s) :
    s.invalidCnt + s.forkFailCnt + s.reapedCnt
        + s.queue.length + s.children.length
      = reqs.length := by
  induction h with
  | refl => simp [initState]
  | tail h1 hstep ih => rw [step_conservation hstep]; exact ih

lemma step_spawned_valid {s t : SchedState} (h : Step s t)
    (hs : ∀ r ∈ s.spawned, is_valid_package_name r.name = true) :
    ∀ r ∈ t.spawned, is_valid_package_name r.name = true := by
  cases h with
  | admit_invalid h1 h2 h3 => exact hs
  | admit_fork_fail h1 h2 h3 h4 => exact hs
  | admit_fork h1 h2 h3 h4 =>
      intro r hr
      rcases List.mem_append.mp hr with hr | hr
      · exact hs r hr
      · rcases List.mem_singleton.mp hr with rfl
        assumption
  | reap i hi hguard => exact hs

lemma reachable_spawned_valid {reqs : List Request} {s : SchedState}
    (h : Reachable (initState reqs) s) :
    ∀ r ∈ s.spawned, is_valid_package_name r.name = true := by
  induction h with
  | refl => simp [initState]
  | tail h1 hstep ih => exact step_spawned_valid hstep ih

lemma step_pred {P : Request → Prop} {s t : SchedState} (h : Step s t)
    (hq : ∀ r ∈ s.queue, P r) (hc : ∀ r ∈ s.children, P r) :
    (∀ r ∈ t.queue, P r) ∧ (∀ r ∈ t.children, P r) := by
  cases h with
  | admit_invalid h1 h2 h3 =>
      exact ⟨fun r hr => hq r (h1 ▸ List.mem_cons_of_mem _ hr), hc⟩
  | admit_fork_fail h1 h2 h3 h4 =>
      exact ⟨fun r hr => hq r (h1 ▸ List.mem_cons_of_mem _ hr), hc⟩
  | admit_fork h1 h2 h3 h4 =>
      refine ⟨fun r hr => hq r (h1 ▸ List.mem_cons_of_mem _ hr), ?_⟩
      intro r hr
      rcases List.mem_append.mp hr with hr | hr
      · exact hc r hr
      · rcases List.mem_singleton.mp hr with rfl
        exact hq r (h1 ▸ List.mem_cons_self r _)
  | reap i hi hguard =>
      exact ⟨hq, fun r hr => hc r (List.eraseIdx_subset _ _ hr)⟩

/-- Requests whose name passes validation, whose fork succeeds, and
whose worker then dies abnormally (for instance killed by a signal). -/
def abnormalReq (r : Request) : Prop :=
  is_valid_package_name r.name = true ∧ r.forkOk = true
    ∧ r.status = TermStatus.signaled

instance (r : Request) : Decidable (abnormalReq r) := by
  unfold abnormalReq; infer_instance

lemma reachable_abnormal {reqs : List Request} {s : SchedState}
    (hall : ∀ r ∈ reqs, abnormalReq r)
    (h : Reachable (initState reqs) s) :
    (∀ r ∈ s.queue, abnormalReq r) ∧ (∀ r ∈ s.children, abnormalReq r)
      ∧ s.failed = 0 := by
  induction h with
  | refl => exact ⟨hall, by simp [initState], rfl⟩
  | tail hpre hstep ih =>
      obtain ⟨ihq, ihc, ihf⟩ := ih
      obtain ⟨hq, hc⟩ := step_pred hstep ihq ihc
      refine ⟨hq, hc, ?_⟩
      cases hstep with
      | admit_invalid h1 h2 h3 =>
          have hv := (ihq _ (h1 ▸ List.mem_cons_self _ _)).1
          rw [h3] at hv
          exact absurd hv (by simp)
      | admit_fork_fail h1 h2 h3 h4 =>
          have hv := (ihq _ (h1 ▸ List.mem_cons_self _ _)).2.1
          rw [h4] at hv
          exact absurd hv (by simp)
      | admit_fork h1 h2 h3 h4 => exact ihf
      | reap i hi hguard =>
          have hmem := List.get_mem _ i hi
          have hsig := (ihc _ hmem).2.2
          rw [List.get_eq_getElem] at hsig
          simp [reapAt, hsig, failOfStatus, ihf]

/-- C1: at every state install_packages_parallel can reach, the number
of live workers is at most the cap max_concurrent = 4, and any step
that increases the live-worker count starts from a state with fewer
than 4 live workers and a non-exhausted queue, so no worker is forked
at the cap or after the queue is exhausted. -/
theorem C1_live_worker_cap (reqs : List Request) (s : SchedState)
    (h : Reachable (initState reqs) s) :
    s.children.length ≤ max_concurrent
      ∧ ∀ t, Step s t → s.children.length < t.children.length →
          s.children.length < max_concurrent ∧ s.queue ≠ [] := by
  refine ⟨reachable_cap h, ?_⟩
  intro t hstep hlt
  cases hstep with
  | admit_invalid h1 h2 h3 => exact absurd hlt (by simp)
  | admit_fork_fail h1 h2 h3 h4 => exact absurd hlt (by simp)
  | admit_fork h1 h2 h3 h4 =>
      exact ⟨h2, by rw [h1]; exact List.cons_ne_nil _ _⟩
  | reap i hi hguard =>
      refine absurd hlt ?_
      simp only [reapAt, List.length_eraseIdx, hi, if_pos]
      omega

/-- Sample request carrying a valid name whose worker exits cleanly. -/
def reqSample : Request := ⟨['y', 'a', 'y'], true, TermStatus.exited 0⟩

/-- Request whose name contains a semicolon and fails validation. -/
def reqInvalid : Request := ⟨['b', 'a', 'd', ';'], true, TermStatus.exited 0⟩

/-- Request whose worker is killed by a signal after a clean fork. -/
def reqAbnormal : Request := ⟨['f', 'o', 'o'], true, TermStatus.signaled⟩

/-- Witness for C1 at the initial state of a one-request batch. -/
theorem C1_live_worker_cap_witness :
    (initState [reqSample]).children.length ≤ max_concurrent
      ∧ ∀ t, Step (initState [reqSample]) t →
          (initState [reqSample]).children.length < t.children.length →
            (initState [reqSample]).children.length < max_concurrent
              ∧ (initState [reqSample]).queue ≠ [] :=
  C1_live_worker_cap [reqSample] (initState [reqSample])
    Relation.ReflTransGen.refl

/-- C5: no worker is ever forked for a request that fails validation
(the spawned log holds only validated names), and when the head of the
queue is invalid, the only step that consumes it leaves the live
workers and the spawned log unchanged while recording exactly one
failure, classified as an invalid-name rejection. -/
theorem C5_invalid_name_pre_dispatch (reqs : List Request)
    (s : SchedState) (h : Reachable (initState reqs) s) :
    (∀ r ∈ s.spawned, is_valid_package_name r.name = true)
      ∧ ∀ r q, s.queue = r :: q →
          is_valid_package_name r.name = false →
          ∀ t, Step s t → t.queue = q →
            t.children = s.children ∧ t.spawned = s.spawned
              ∧ t.failed = s.failed + 1
              ∧ t.invalidCnt = s.invalidCnt + 1
              ∧ t.forkFailCnt = s.forkFailCnt
              ∧ t.reapedCnt = s.reapedCnt := by
  refine ⟨reachable_spawned_valid h, ?_⟩
  intro r q hq hinv t hstep ht
  cases hstep with
  | admit_invalid h1 h2 h3 =>
      exact ⟨rfl, rfl, rfl, rfl, rfl, rfl⟩
  | admit_fork_fail h1 h2 h3 h4 =>
      rw [hq] at h1
      obtain ⟨rfl, rfl⟩ := List.cons.inj h1
      rw [hinv] at h3
      exact absurd h3 (by simp)
  | admit_fork h1 h2 h3 h4 =>
      rw [hq] at h1
      obtain ⟨rfl, rfl⟩ := List.cons.inj h1
      rw [hinv] at h3
      exact absurd h3 (by simp)
  | reap i hi hguard =>
      rw [show (reapAt s i hi).queue = s.queue from rfl, hq] at ht
      exact absurd ht (List.cons_ne_self r q)

/-- Witness for C5 at the initial state of a batch whose single
request carries a semicolon in its name. -/
theorem C5_invalid_name_pre_dispatch_witness :
    (∀ r ∈ (initState [reqInvalid]).spawned,
        is_valid_package_name r.name = true)
      ∧ ∀ r q, (initState [reqInvalid]).queue = r :: q →
          is_valid_package_name r.name = false →
          ∀ t, Step (initState [reqInvalid]) t → t.queue = q →
            t.children = (initState [reqInvalid]).children
              ∧ t.spawned = (initState [reqInvalid]).spawned
              ∧ t.failed = (initState [reqInvalid]).failed + 1
              ∧ t.invalidCnt = (initState [reqInvalid]).invalidCnt + 1
              ∧ t.forkFailCnt = (initState [reqInvalid]).forkFailCnt
              ∧ t.reapedCnt = (initState [reqInvalid]).reapedCnt :=
  C5_invalid_name_pre_dispatch [reqInvalid] (initState [reqInvalid])
    Relation.ReflTransGen.refl

/-- C8: in every reachable state the recorded outcome counts plus the
pending and live requests add up to the batch size, so when the queue
is exhausted and all workers are reaped, exactly one outcome per
request has been recorded — none dropped, none duplicated. -/
theorem C8_one_outcome_per_request (reqs : List Request)
    (s : SchedState) (h : Reachable (initState reqs) s) :
    s.invalidCnt + s.forkFailCnt + s.reapedCnt
        + s.queue.length + s.children.length = reqs.length
      ∧ (s.queue = [] → s.children = [] →
          s.invalidCnt + s.forkFailCnt + s.reapedCnt = reqs.length) := by
  refine ⟨reachable_conservation h, ?_⟩
  intro hq hc
  have hcons := reachable_conservation h
  rw [hq, hc] at hcons
  simpa using hcons

/-- Witness for C8 at the initial state of a one-request batch. -/
theorem C8_one_outcome_per_request_witness :
    ((initState [reqSample]).invalidCnt
          + (initState [reqSample]).forkFailCnt
          + (initState [reqSample]).reapedCnt
          + (initState [reqSample]).queue.length
          + (initState [reqSample]).children.length
        = [reqSample].length)
      ∧ ((initState [reqSample]).queue = [] →
          (initState [reqSample]).children = [] →
            (initState [reqSample]).invalidCnt
                + (initState [reqSample]).forkFailCnt
                + (initState [reqSample]).reapedCnt
              = [reqSample].length) :=
  C8_one_outcome_per_request [reqSample] (initState [reqSample])
    Relation.ReflTransGen.refl

/-- C10: reaping a worker that terminated abnormally removes it from
the live set without touching failed_count, and a batch of validated,
successfully forked requests whose workers all die abnormally keeps
failed_count at zero in every reachable state, so the run is reported
fully successful (return value 0). -/
theorem C10_abnormal_exit_not_counted (reqs : List Request)
    (s : SchedState) (h : Reachable (initState reqs) s)
    (hall : ∀ r ∈ reqs, abnormalReq r) :
    s.failed = 0 ∧ scheduler_return s = 0
      ∧ ∀ i (hi : i < s.children.length),
          (s.children.get ⟨i, hi⟩).status = TermStatus.signaled →
            (reapAt s i hi).children = s.children.eraseIdx i
              ∧ (reapAt s i hi).children.length + 1 = s.children.length
              ∧ (reapAt s i hi).failed = s.failed := by
  obtain ⟨-, -, hf⟩ := reachable_abnormal hall h
  refine ⟨hf, by simp [scheduler_return, hf], ?_⟩
  intro i hi hsig
  refine ⟨rfl, ?_, ?_⟩
  · simp only [reapAt, List.length_eraseIdx, hi, if_pos]
    omega
  · rw [List.get_eq_getElem] at hsig
    simp [reapAt, hsig, failOfStatus]

/-- Witness for C10 at the initial state of a batch whose single
request is a validated package whose worker dies by a signal. -/
theorem C10_abnormal_exit_not_counted_witness :
    (initState [reqAbnormal]).failed = 0
      ∧ scheduler_return (initState [reqAbnormal]) = 0
      ∧ ∀ i (hi : i < (initState [reqAbnormal]).children.length),
          ((initState [reqAbnormal]).children.get ⟨i, hi⟩).status
              = TermStatus.signaled →
            (reapAt (initState [reqAbnormal]) i hi).children
                = (initState [reqAbnormal]).children.eraseIdx i
              ∧ (reapAt (initState [reqAbnormal]) i hi).children.length + 1
                = (initState [reqAbnormal]).children.length
              ∧ (reapAt (initState [reqAbnormal]) i hi).failed
                = (initState [reqAbnormal]).failed :=
  C10_abnormal_exit_not_counted [reqAbnormal] (initState [reqAbnormal])
    Relation.ReflTransGen.refl (by decide)

/-- Embedding of remove_pkg (main.cpp lines 178-198): skip with
success when not installed, otherwise classify the pacman removal exit
code. -/
def remove_pkg (installed : Bool) (pacman_rc : Int) : Nat :=
  if installed = false then 0
  else if pacman_rc ≠ 0 then 1
  else 0

/-- Embedding of clean_cache (main.cpp lines 280-295): classify the
pacman -Scc exit code. -/
def clean_cache (pacman_rc : Int) : Nat :=
  if pacman_rc = 0 then 0 else 1

/-- External results consumed by one update_pkg call on a named
package (main.cpp lines 231-269). -/
structure UpdateEnv where
  installed : Bool
  pacman_rc : Int
  clone_rc : Int
  makepkg_rc : Int
deriving DecidableEq

/-- Embedding of the named-package branch of update_pkg (main.cpp
lines 231-269): try the pacman update when installed, fall back to a
fresh clone and rebuild, classifying each nonzero exit code. -/
def update_pkg (e : UpdateEnv) : Nat :=
  if e.installed && e.pacman_rc == 0 then 0
  else if e.clone_rc ≠ 0 then 1
  else if e.makepkg_rc ≠ 0 then 1
  else 0

/-- Embedding of the full-upgrade branch of update_pkg (main.cpp
lines 219-230), taken when the package argument is empty. -/
def update_pkg_system (pacman_rc : Int) : Nat :=
  if pacman_rc ≠ 0 then 1 else 0

/-- Exit code of the remove subcommand of main (main.cpp lines
689-728 and 761): usage error 1 when no package follows the options;
otherwise each remove_pkg result is computed and discarded by the loop
on line 726-727, and control falls through to `return 0`. -/
def main_remove_exit (pkgs : List (Bool × Int)) : Nat :=
  if pkgs.isEmpty then 1
  else
    let results := pkgs.map (fun p => remove_pkg p.1 p.2)
    let _ := results
    0

/-- Exit code of the update subcommand of main (main.cpp lines
729-742 and 761): both branches discard the update_pkg results and
fall through to `return 0`. -/
def main_update_exit (envs : List UpdateEnv) (sys_rc : Int) : Nat :=
  if envs.isEmpty then
    let result := update_pkg_system sys_rc
    let _ := result
    0
  else
    let results := envs.map update_pkg
    let _ := results
    0

/-- Exit code of the clean subcommand of main (main.cpp lines 743-747
and 761): the clean_cache result is computed and discarded. -/
def main_clean_exit (pacman_rc : Int) : Nat :=
  let result := clean_cache pacman_rc
  let _ := result
  0

/-- Exit code of the install subcommand of main (main.cpp line 687):
main returns install_packages_parallel's value directly, which is 1
exactly when failed_count is positive. -/
def main_install_exit (s : SchedState) : Nat :=
  scheduler_return s

/-- C6 counterexample: a failing clean operation (pacman exit code 1,
so clean_cache reports failure 1) still makes the process exit 0, and
likewise a failing removal of an installed package; this refutes the
claim that the process exit code is 1 on any failure of the remove,
update, and clean operations. -/
theorem C6_subcommand_exit_counterexample :
    clean_cache 1 = 1 ∧ main_clean_exit 1 = 0
      ∧ remove_pkg true 1 = 1 ∧ main_remove_exit [(true, 1)] = 0
      ∧ update_pkg_system 1 = 1 ∧ main_update_exit [] 1 = 0 := by
  decide

/-- C6 as amended: install_packages_parallel returns 1 exactly when
its failure count is positive and main passes that value through for
the install subcommand; but for the remove, update, and clean
subcommands the sub-operation results are discarded, the process exits
0 whether or not they failed, and only the usage error of remove
(no package named) exits 1. -/
theorem C6_exit_code_amended (s : SchedState) :
    (main_install_exit s = 1 ↔ 0 < s.failed)
      ∧ (main_install_exit s = 0 ↔ s.failed = 0)
      ∧ (∀ pkgs : List (Bool × Int),
          main_remove_exit pkgs = if pkgs.isEmpty then 1 else 0)
      ∧ (∀ envs sys_rc, main_update_exit envs sys_rc = 0)
      ∧ (∀ rc, main_clean_exit rc = 0) := by
  refine ⟨?_, ?_, ?_, ?_, ?_⟩
  · unfold main_install_exit scheduler_return
    by_cases hf : 0 < s.failed <;> simp [hf]
  · unfold main_install_exit scheduler_return
    by_cases hf : 0 < s.failed <;> simp [hf] <;> omega
  · intro pkgs
    unfold main_remove_exit
    by_cases hp : pkgs.isEmpty <;> simp [hp]
  · intro envs sys_rc
    unfold main_update_exit
    by_cases he : envs.isEmpty <;> simp [he]
  · intro rc
    rfl

end Auh
